import Mathlib

/-!
Shallow embedding of the core of the procly process-execution library
(status taxonomy, configuration lowering, wait policy, pipeline
composition, child handles, executable-path resolution), together with
theorems settling the specification claims about it.

Conventions of the embedding:
* machine integers are `Int`/`Nat` (no arithmetic overflows occur in the
  modelled code paths);
* fallible C++ functions returning `procly::Result<T>` become
  `Except Error T`;
* stateful collaborators (the spawn backend, the clock, the child's
  exit behaviour) are explicit state-passing records, mirroring the
  test doubles the repository itself uses (`FakeBackend`, `FakeClock`);
* the clock is the deterministic test clock: `now` is a natural number
  of milliseconds and `sleep_for` advances it by exactly the slept
  duration, matching `FakeClock` in `timeout_policy_test.cc`.
-/

namespace Procly

/-- Closed error taxonomy of `procly::errc` (result.hpp). -/
inductive Errc where
  | ok
  | empty_argv
  | invalid_stdio
  | invalid_pipeline
  | pipe_failed
  | spawn_failed
  | wait_failed
  | read_failed
  | write_failed
  | open_failed
  | close_failed
  | dup_failed
  | chdir_failed
  | kill_failed
  | timeout
deriving DecidableEq, Repr

/-- An error code is either a procly domain code or an OS errno value
(`std::error_code` with the system category). -/
inductive ErrCode where
  | domain (e : Errc)
  | os (errno : Int)
deriving DecidableEq, Repr

/-- `procly::Error`: code plus human-readable context. -/
structure Error where
  code : ErrCode
  context : String
deriving DecidableEq, Repr

/-- Kind discriminator of `procly::ExitStatus`. -/
inductive ExitKind where
  | exited
  | other
deriving DecidableEq, Repr

/-- `procly::ExitStatus` (status.hpp): private fields with their C++
default initialisers (`kind_{Kind::other}`, `code_{0}`, `native_{0}`). -/
structure ExitStatus where
  kind_ : ExitKind := .other
  code_ : Int := 0
  native_ : Nat := 0
deriving DecidableEq, Repr

/-- `ExitStatus::exited(code, native)` (status.cc). -/
def ExitStatus.exited (code : Int) (native : Nat := 0) : ExitStatus :=
  { kind_ := .exited, code_ := code, native_ := native }

/-- `ExitStatus::other(native)` (status.cc); `code_` keeps its default. -/
def ExitStatus.other (native : Nat := 0) : ExitStatus :=
  { kind_ := .other, native_ := native }

/-- `ExitStatus::kind()`. -/
def ExitStatus.kind (s : ExitStatus) : ExitKind := s.kind_

/-- `ExitStatus::code()`: the exit code when the kind is `exited`. -/
def ExitStatus.code (s : ExitStatus) : Option Int :=
  if s.kind_ ≠ ExitKind.exited then none else some s.code_

/-- `ExitStatus::success()`: `kind_ == Kind::exited && code_ == 0`. -/
def ExitStatus.success (s : ExitStatus) : Bool :=
  s.kind_ == ExitKind.exited && s.code_ == 0

/-- `ExitStatus::native()`. -/
def ExitStatus.native (s : ExitStatus) : Nat := s.native_

/-- File open modes (stdio.hpp `OpenMode`). -/
inductive OpenMode where
  | read
  | write_truncate
  | write_append
  | read_write
deriving DecidableEq, Repr

/-- User-facing stdio selection (stdio.hpp `Stdio`): tagged variant of
`Inherit | Null | Piped | Fd | File`.  `file` carries the optional open
mode and optional POSIX permissions of `FileSpec`. -/
inductive Stdio where
  | inherit
  | null
  | piped
  | fd (n : Int)
  | file (path : String) (mode : Option OpenMode) (perms : Option Nat)
deriving DecidableEq, Repr

/-- Spawn options (command.hpp `SpawnOptions`). -/
structure SpawnOptions where
  new_process_group : Bool := false
  merge_stderr_into_stdout : Bool := false
deriving DecidableEq, Repr

/-- The builder state of `procly::Command` that lowering reads through
`CommandAccess` (command.hpp private fields). `env_delta` models the
`std::map<std::string, std::optional<std::string>>`; the map's entries
are listed in iteration order. -/
structure Command where
  argv : List String
  cwd : Option String := none
  inherit_env : Bool := true
  env_delta : List (String × Option String) := []
  stdin_sel : Option Stdio := none
  stdout_sel : Option Stdio := none
  stderr_sel : Option Stdio := none
  opts : SpawnOptions := {}
deriving DecidableEq, Repr

/-- Resolved stdio slot kind (backend.hpp `StdioSpec::Kind`). -/
inductive StdioKind where
  | inherit
  | null
  | piped
  | fd
  | file
  | dup_stdout
deriving DecidableEq, Repr

/-- Resolved stdio slot (backend.hpp `StdioSpec`) with its C++ field
default initialisers. -/
structure StdioSpec where
  kind : StdioKind := .inherit
  fd : Int := -1
  path : String := ""
  mode : OpenMode := .read
  perms : Option Nat := none
deriving DecidableEq, Repr

/-- Fully-resolved spawn specification (backend.hpp `SpawnSpec`). -/
structure SpawnSpec where
  argv : List String := []
  cwd : Option String := none
  envp : List String := []
  stdin_spec : StdioSpec := {}
  stdout_spec : StdioSpec := {}
  stderr_spec : StdioSpec := {}
  opts : SpawnOptions := {}
  process_group : Option Int := none
deriving DecidableEq, Repr

/-- Live child record (backend.hpp `Spawned`). -/
structure Spawned where
  pid : Int := -1
  pgid : Option Int := none
  stdin_fd : Option Int := none
  stdout_fd : Option Int := none
  stderr_fd : Option Int := none
  new_process_group : Bool := false
deriving DecidableEq, Repr

/-! ## Lowering (lowering.cc) -/

/-- Stdio direction tag (lowering.cc `StdioTarget`). -/
inductive StdioTarget where
  | stdin
  | stdout
  | stderr
deriving DecidableEq, Repr

/-- lowering.cc `default_open_mode`. -/
def default_open_mode (target : StdioTarget) : OpenMode :=
  match target with
  | .stdin => .read
  | _ => .write_truncate

/-- lowering.cc `mode_is_readable`. -/
def mode_is_readable (mode : OpenMode) : Bool :=
  mode == OpenMode.read || mode == OpenMode.read_write

/-- lowering.cc `mode_is_writable`. -/
def mode_is_writable (mode : OpenMode) : Bool :=
  mode == OpenMode.write_truncate || mode == OpenMode.write_append ||
    mode == OpenMode.read_write

/-- lowering.cc `resolve_stdio`: translate one optional user selection
into a resolved `StdioSpec`, validating fd non-negativity and
file-mode direction. -/
def resolve_stdio (value : Option Stdio) (piped_default : Bool)
    (target : StdioTarget) : Except Error StdioSpec :=
  match value with
  | none =>
      .ok { kind := if piped_default then .piped else .inherit }
  | some .inherit => .ok { kind := .inherit }
  | some .null => .ok { kind := .null }
  | some .piped => .ok { kind := .piped }
  | some (.fd n) =>
      if n < 0 then
        .error { code := .domain .invalid_stdio, context := "fd" }
      else
        .ok { kind := .fd, fd := n }
  | some (.file path mode perms) =>
      let m := mode.getD (default_open_mode target)
      match target with
      | .stdin =>
          if mode_is_readable m then
            .ok { kind := .file, path := path, mode := m, perms := perms }
          else
            .error { code := .domain .invalid_stdio, context := "file_mode" }
      | _ =>
          if mode_is_writable m then
            .ok { kind := .file, path := path, mode := m, perms := perms }
          else
            .error { code := .domain .invalid_stdio, context := "file_mode" }

/-- Association list ordered strictly by key: the model of
`std::map<std::string, std::string, std::less<>>`. -/
abbrev EnvMap := List (String × String)

/-- Lexicographic strict order on character data: the model of
`std::less<std::string>` (byte-wise lexicographic comparison). -/
def charsLt : List Char → List Char → Bool
  | _, [] => false
  | [], _ :: _ => true
  | a :: as, b :: bs =>
      if a.toNat < b.toNat then true
      else if b.toNat < a.toNat then false
      else charsLt as bs

/-- Lexicographic strict order on strings. -/
def strLt (a b : String) : Bool := charsLt a.data b.data

/-- Ordered-map insert-or-assign (`env_map[key] = value`). -/
def envInsert (k v : String) : EnvMap → EnvMap
  | [] => [(k, v)]
  | (k', v') :: rest =>
      if strLt k k' then (k, v) :: (k', v') :: rest
      else if k = k' then (k, v) :: rest
      else (k', v') :: envInsert k v rest

/-- Ordered-map erase (`env_map.erase(key)`). -/
def envErase (k : String) : EnvMap → EnvMap
  | [] => []
  | (k', v') :: rest =>
      if k = k' then rest else (k', v') :: envErase k rest

/-- Ordered-map lookup. -/
def envLookup (k : String) : EnvMap → Option String
  | [] => none
  | (k', v) :: rest => if k = k' then some v else envLookup k rest

/-- Split a character sequence at its first `=`
(`entry.find(\'=\')`). -/
def splitAtEq : List Char → Option (List Char × List Char)
  | [] => none
  | c :: rest =>
      if c = '=' then some ([], rest)
      else
        match splitAtEq rest with
        | none => none
        | some (k, v) => some (c :: k, v)

/-- Split one `environ` entry at its first `=` (lowering.cc lines
101-108); entries without `=` are skipped by the caller. -/
def splitEnvEntry (entry : String) : Option (String × String) :=
  match splitAtEq entry.data with
  | none => none
  | some (k, v) => some (String.mk k, String.mk v)

/-- Fold the process environment snapshot into the sorted map (the
`inherit_env` loop of `lower_command`). -/
def foldEnviron (env : List String) : EnvMap :=
  env.foldl
    (fun m entry =>
      match splitEnvEntry entry with
      | none => m
      | some (k, v) => envInsert k v m)
    []

/-- Apply one `env_delta` entry: `set(value)` overrides, `unset`
removes (the `env_delta` loop of `lower_command`). -/
def applyDeltaEntry (m : EnvMap) (entry : String × Option String) : EnvMap :=
  match entry.2 with
  | some v => envInsert entry.1 v m
  | none => envErase entry.1 m

/-- The final environment map of `lower_command`: environment snapshot
(when inherited) with the delta applied. -/
def buildEnvMap (inherit : Bool) (env : List String)
    (delta : List (String × Option String)) : EnvMap :=
  (delta.foldl applyDeltaEntry (if inherit then foldEnviron env else []))

/-- The `KEY=VALUE` sequence emitted into `SpawnSpec::envp`. -/
def envpOf (inherit : Bool) (env : List String)
    (delta : List (String × Option String)) : List String :=
  (buildEnvMap inherit env delta).map (fun kv => kv.1 ++ "=" ++ kv.2)

/-- Spawn mode (lowering.hpp `SpawnMode`). -/
inductive SpawnMode where
  | spawn
  | output
deriving DecidableEq, Repr

/-- Per-stage stdio overrides (lowering.hpp `StdioOverride`). -/
structure StdioOverride where
  stdin_override : Option Stdio := none
  stdout_override : Option Stdio := none
  stderr_override : Option Stdio := none
deriving DecidableEq, Repr

/-- Effective selection after the optional override pointer is applied
(lowering.cc lines 132-145): an override replaces the command's value
only when it is itself present. -/
def effectiveSel (sel : Option Stdio) (ov : Option (Option Stdio)) : Option Stdio :=
  match ov with
  | none => sel
  | some o => match o with
      | some s => some s
      | none => sel

/-- The resolved stderr slot installed by `merge_stderr_into_stdout`
(lowering.cc lines 164-167): a default `StdioSpec` with kind
`dup_stdout`. -/
def dupStdoutSpec : StdioSpec := { kind := .dup_stdout }

/-- lowering.cc `lower_command`: validate argv, build the envp, apply
overrides, resolve the three stdio slots, then apply the stderr merge.
The process environment snapshot `env` is a parameter (the C++ reads
`environ` at this point). -/
def lower_command (cmd : Command) (env : List String) (mode : SpawnMode)
    (ov : Option StdioOverride) : Except Error SpawnSpec :=
  if cmd.argv = [] then
    .error { code := .domain .empty_argv, context := "argv" }
  else
    let envp := envpOf cmd.inherit_env env cmd.env_delta
    let output_mode := mode == SpawnMode.output
    let stdin_value := effectiveSel cmd.stdin_sel (ov.map (·.stdin_override))
    let stdout_value := effectiveSel cmd.stdout_sel (ov.map (·.stdout_override))
    let stderr_value := effectiveSel cmd.stderr_sel (ov.map (·.stderr_override))
    match resolve_stdio stdin_value false .stdin with
    | .error e => .error e
    | .ok stdin_spec =>
      match resolve_stdio stdout_value output_mode .stdout with
      | .error e => .error e
      | .ok stdout_spec =>
        match resolve_stdio stderr_value output_mode .stderr with
        | .error e => .error e
        | .ok stderr_spec =>
          let spec : SpawnSpec :=
            { argv := cmd.argv, cwd := cmd.cwd, envp := envp
              stdin_spec := stdin_spec, stdout_spec := stdout_spec
              stderr_spec := stderr_spec, opts := cmd.opts
              process_group := none }
          if spec.opts.merge_stderr_into_stdout then
            .ok { spec with stderr_spec := dupStdoutSpec }
          else
            .ok spec

/-! ## Pipeline lowering (lowering.cc `lower_pipeline`) -/

/-- The builder state of `procly::Pipeline` read through
`PipelineAccess` (pipeline.hpp private fields). -/
structure Pipeline where
  stages : List Command := []
  pipefail : Bool := false
  new_pgrp : Bool := false
  stdin_sel : Option Stdio := none
  stdout_sel : Option Stdio := none
  stderr_sel : Option Stdio := none
deriving DecidableEq, Repr

/-- Per-stage spec (lowering.hpp `PipelineStageSpec`); `command` holds
the stage's command value (the C++ stores a pointer into the stage
vector). -/
structure PipelineStageSpec where
  command : Command
  mode : SpawnMode := .spawn
  overrides : StdioOverride := {}
  stdin_from_prev : Bool := false
  stdout_to_next : Bool := false
deriving DecidableEq, Repr

/-- lowering.hpp `PipelineSpec`. -/
structure PipelineSpec where
  stages : List PipelineStageSpec := []
  pipefail : Bool := false
  new_process_group : Bool := false
deriving DecidableEq, Repr

/-- lowering.cc `lower_pipeline`: reject the empty pipeline, then give
each stage its mode, position flags and end-cap overrides. -/
def lower_pipeline (pipeline : Pipeline) (mode : SpawnMode) :
    Except Error PipelineSpec :=
  if pipeline.stages = [] then
    .error { code := .domain .invalid_pipeline, context := "pipeline" }
  else
    let n := pipeline.stages.length
    .ok { pipefail := pipeline.pipefail
          new_process_group := pipeline.new_pgrp
          stages := pipeline.stages.enum.map (fun ic =>
            { command := ic.2
              mode := if ic.1 + 1 = n then mode else .spawn
              stdin_from_prev := decide (0 < ic.1)
              stdout_to_next := decide (ic.1 + 1 < n)
              overrides :=
                { stdin_override := if ic.1 = 0 then pipeline.stdin_sel else none
                  stdout_override := if ic.1 + 1 = n then pipeline.stdout_sel else none
                  stderr_override := if ic.1 + 1 = n then pipeline.stderr_sel else none } }) }

/-! ## Backend and world (backend.hpp, fd.hpp) -/

/-- The backend interface (backend.hpp `Backend`), in explicit
state-passing form over a world state `σ`.  Durations are milliseconds
as naturals. -/
structure Backend (σ : Type) where
  spawn : SpawnSpec → σ → Except Error Spawned × σ
  wait : Spawned → Option Nat → Nat → σ → Except Error ExitStatus × σ
  try_wait : Spawned → σ → Except Error (Option ExitStatus) × σ
  terminate : Spawned → σ → Except Error Unit × σ
  kill : Spawned → σ → Except Error Unit × σ

/-- The OS facilities pipeline composition uses: the backend plus
`internal::create_pipe` (fd.hpp), which yields a (read end, write end)
descriptor pair. -/
structure World (σ : Type) where
  backend : Backend σ
  create_pipe : σ → Except Error (Int × Int) × σ

/-! ## Child handles (child.cc, pipeline.cc) -/

/-- `Child::Impl` (child.cc): the spawned record plus the parent-side
pipe endpoints, modelled by their descriptors. -/
structure ChildImpl where
  spawned : Spawned
  stdin_pipe : Option Int := none
  stdout_pipe : Option Int := none
  stderr_pipe : Option Int := none
deriving DecidableEq, Repr

/-- `procly::Child`: handle owning an optional `Impl`. -/
structure Child where
  impl : Option ChildImpl := none
deriving DecidableEq, Repr

/-- `ChildAccess::from_spawned` together with the `Child::Impl`
constructor: pipe endpoints are created from the spawned record's
parent-side fds. -/
def Child.from_spawned (sp : Spawned) : Child :=
  { impl := some { spawned := sp, stdin_pipe := sp.stdin_fd
                   stdout_pipe := sp.stdout_fd, stderr_pipe := sp.stderr_fd } }

/-- `Child::take_stdin` (child.cc): move the endpoint out, leaving the
slot empty. -/
def Child.take_stdin (c : Child) : Option Int × Child :=
  match c.impl with
  | none => (none, c)
  | some i => (i.stdin_pipe, { impl := some { i with stdin_pipe := none } })

/-- `Child::take_stdout` (child.cc). -/
def Child.take_stdout (c : Child) : Option Int × Child :=
  match c.impl with
  | none => (none, c)
  | some i => (i.stdout_pipe, { impl := some { i with stdout_pipe := none } })

/-- `Child::take_stderr` (child.cc). -/
def Child.take_stderr (c : Child) : Option Int × Child :=
  match c.impl with
  | none => (none, c)
  | some i => (i.stderr_pipe, { impl := some { i with stderr_pipe := none } })

/-- `PipelineChild::Impl` (pipeline.cc). -/
structure PipelineChildImpl where
  spawned : List Spawned := []
  pipefail : Bool := false
  new_process_group : Bool := false
  pgid : Option Int := none
  stdin_pipe : Option Int := none
  stdout_pipe : Option Int := none
  stderr_pipe : Option Int := none
deriving DecidableEq, Repr

/-- `procly::PipelineChild`. -/
structure PipelineChild where
  impl : Option PipelineChildImpl := none
deriving DecidableEq, Repr

/-- End of `spawn_pipeline` (pipeline.cc lines 124-146): the impl takes
stdin from the first stage and stdout/stderr from the last. -/
def PipelineChild.from_spawned (spawned : List Spawned)
    (pipefail npg : Bool) (pgid : Option Int) : PipelineChild :=
  { impl := some
      { spawned := spawned, pipefail := pipefail
        new_process_group := npg, pgid := pgid
        stdin_pipe := match spawned.head? with
          | some first => first.stdin_fd
          | none => none
        stdout_pipe := match spawned.getLast? with
          | some last => last.stdout_fd
          | none => none
        stderr_pipe := match spawned.getLast? with
          | some last => last.stderr_fd
          | none => none } }

/-- `PipelineChild::take_stdin` (pipeline.cc). -/
def PipelineChild.take_stdin (c : PipelineChild) : Option Int × PipelineChild :=
  match c.impl with
  | none => (none, c)
  | some i => (i.stdin_pipe, { impl := some { i with stdin_pipe := none } })

/-- `PipelineChild::take_stdout` (pipeline.cc). -/
def PipelineChild.take_stdout (c : PipelineChild) : Option Int × PipelineChild :=
  match c.impl with
  | none => (none, c)
  | some i => (i.stdout_pipe, { impl := some { i with stdout_pipe := none } })

/-- `PipelineChild::take_stderr` (pipeline.cc). -/
def PipelineChild.take_stderr (c : PipelineChild) : Option Int × PipelineChild :=
  match c.impl with
  | none => (none, c)
  | some i => (i.stderr_pipe, { impl := some { i with stderr_pipe := none } })

/-! ## Pipeline spawn (pipeline.cc `spawn_pipeline`) -/

/-- The pipe-allocation loop of `spawn_pipeline` (lines 70-79): create
`n` pipes in order, failing fast. -/
def createPipes (w : World σ) : Nat → σ → Except Error (List (Int × Int)) × σ
  | 0, s => (.ok [], s)
  | n + 1, s =>
      match w.create_pipe s with
      | (.error e, s') => (.error e, s')
      | (.ok p, s') =>
          match createPipes w n s' with
          | (.error e, s'') => (.error e, s'')
          | (.ok ps, s'') => (.ok (p :: ps), s'')

/-- The stage-spawn loop of `spawn_pipeline` (lines 86-122): wire the
inter-stage pipe fds into the overrides, lower, apply process-group
propagation, spawn.  On a spawn failure the error is returned
immediately; already-spawned stages are not killed or reaped (lines
112-115).  Returns the spawned records and the accumulated pipeline
pgid. -/
def spawnStages (w : World σ) (env : List String) (pipes : List (Int × Int))
    (npg : Bool) :
    List PipelineStageSpec → Nat → Option Int → σ →
      Except Error (List Spawned × Option Int) × σ
  | [], _, pgid, s => (.ok ([], pgid), s)
  | stage :: rest, index, pgid, s =>
      let ov0 := stage.overrides
      let prev_read := (pipes.getD (index - 1) (-1, -1)).1
      let next_write := (pipes.getD index (-1, -1)).2
      let ov1 := if stage.stdin_from_prev
        then { ov0 with stdin_override := some (Stdio.fd prev_read) }
        else ov0
      let ov2 := if stage.stdout_to_next
        then { ov1 with stdout_override := some (Stdio.fd next_write) }
        else ov1
      match lower_command stage.command env stage.mode (some ov2) with
      | .error e => (.error e, s)
      | .ok spec0 =>
          let spec := if npg then
              (if pgid.isNone then
                { spec0 with opts := { spec0.opts with new_process_group := true } }
               else { spec0 with process_group := pgid })
            else spec0
          match w.backend.spawn spec s with
          | (.error e, s') => (.error e, s')
          | (.ok sp, s') =>
              let pgid' := if npg && pgid.isNone then sp.pgid else pgid
              match spawnStages w env pipes npg rest (index + 1) pgid' s' with
              | (.error e, s'') => (.error e, s'')
              | (.ok (sps, pgid''), s'') => (.ok (sp :: sps, pgid''), s'')

/-- pipeline.cc `spawn_pipeline`: lower the pipeline, allocate the
inter-stage pipes, spawn the stages in order and assemble the handle. -/
def spawn_pipeline (w : World σ) (env : List String) (pipeline : Pipeline)
    (mode : SpawnMode) (s : σ) : Except Error PipelineChild × σ :=
  match lower_pipeline pipeline mode with
  | .error e => (.error e, s)
  | .ok pspec =>
      match createPipes w (pspec.stages.length - 1) s with
      | (.error e, s') => (.error e, s')
      | (.ok pipes, s') =>
          match spawnStages w env pipes pspec.new_process_group
              pspec.stages 0 none s' with
          | (.error e, s'') => (.error e, s'')
          | (.ok (sps, pgid), s'') =>
              (.ok (PipelineChild.from_spawned sps pspec.pipefail
                      pspec.new_process_group pgid), s'')

/-! ## Pipeline wait (pipeline.cc `PipelineChild::wait`) -/

/-- `PipelineStatus`: per-stage statuses plus the aggregate. -/
structure PipelineStatus where
  stages : List ExitStatus := []
  aggregate : ExitStatus := {}
deriving DecidableEq, Repr

/-- The status-collection loop of `PipelineChild::wait` (lines
231-238): reap each stage in order with a blocking wait. -/
def collectWaits (w : World σ) :
    List Spawned → σ → Except Error (List ExitStatus) × σ
  | [], s => (.ok [], s)
  | sp :: rest, s =>
      match w.backend.wait sp none 0 s with
      | (.error e, s') => (.error e, s')
      | (.ok st, s') =>
          match collectWaits w rest s' with
          | (.error e, s'') => (.error e, s'')
          | (.ok sts, s'') => (.ok (st :: sts), s'')

/-- The pipefail scan of `PipelineChild::wait` (lines 249-255): the
first non-success status, else `back`. -/
def aggregateLoop (back : ExitStatus) : List ExitStatus → ExitStatus
  | [] => back
  | st :: rest => if !st.success then st else aggregateLoop back rest

/-- pipeline.cc `PipelineChild::wait`: collect the per-stage statuses
in order, then aggregate under the pipefail rule. -/
def PipelineChild.wait (w : World σ) (c : PipelineChild) (s : σ) :
    Except Error PipelineStatus × σ :=
  match c.impl with
  | none => (.error { code := .domain .wait_failed, context := "wait" }, s)
  | some i =>
      match collectWaits w i.spawned s with
      | (.error e, s') => (.error e, s')
      | (.ok stats, s') =>
          match stats with
          | [] => (.error { code := .domain .invalid_pipeline, context := "wait" }, s')
          | st0 :: rest =>
              let back := (st0 :: rest).getLast (by simp)
              if !i.pipefail then
                (.ok { stages := st0 :: rest, aggregate := back }, s')
              else
                (.ok { stages := st0 :: rest
                       aggregate := aggregateLoop back (st0 :: rest) }, s')

/-! ## Wait policy (wait_policy.cc `wait_with_timeout`)

The clock is the deterministic test clock: the current time is a
natural number of milliseconds threaded through the computation, and
each `sleep_for` of the 1 ms step advances it by exactly 1 (matching
`FakeClock`; the real monotonic clock advances at least as much). -/

/-- `WaitOps` (wait_policy.hpp), in state-passing form.  Each
operation observes the current time (the live child's behaviour may
depend on it) and transforms the world state `σ`. -/
structure WaitOps (σ : Type) where
  try_wait : Nat → σ → Except Error (Option ExitStatus) × σ
  wait_blocking : Nat → σ → Except Error ExitStatus × σ
  terminate : Nat → σ → Except Error Unit × σ
  kill : Nat → σ → Except Error Unit × σ

/-- The timeout error value built at wait_policy.cc lines 246 and 257. -/
def timeoutError : Error := { code := .domain .timeout, context := "timeout" }

/-- The pre-deadline poll loop (wait_policy.cc lines 221-231): while
`now < deadline`, `try_wait`; a status or an error ends the wait with
that result; otherwise sleep one 1 ms step.  Returns `none` when the
deadline is reached without a result. -/
def pollPhase (ops : WaitOps σ) (deadline : Nat) (t : Nat) (s : σ) :
    Option (Except Error ExitStatus) × Nat × σ :=
  if _h : t < deadline then
    match ops.try_wait t s with
    | (.error e, s') => (some (.error e), t, s')
    | (.ok (some st), s') => (some (.ok st), t, s')
    | (.ok none, s') => pollPhase ops deadline (t + 1) s'
  else
    (none, t, s)
termination_by deadline - t
decreasing_by omega

/-- The grace-window loop (wait_policy.cc lines 239-249): like the
poll loop, but a status appearing is reported as the `timeout` error. -/
def gracePhase (ops : WaitOps σ) (grace_deadline : Nat) (t : Nat) (s : σ) :
    Option (Except Error ExitStatus) × Nat × σ :=
  if _h : t < grace_deadline then
    match ops.try_wait t s with
    | (.error e, s') => (some (.error e), t, s')
    | (.ok (some _), s') => (some (.error timeoutError), t, s')
    | (.ok none, s') => gracePhase ops grace_deadline (t + 1) s'
  else
    (none, t, s)
termination_by grace_deadline - t
decreasing_by omega

/-- The escalation tail of `wait_with_timeout` once the grace window
has elapsed (wait_policy.cc lines 251-257): `kill`, then a blocking
reap whose result is discarded, then the `timeout` error. -/
def afterGrace (ops : WaitOps σ) (t : Nat) (s : σ) :
    Except Error ExitStatus × Nat × σ :=
  match ops.kill t s with
  | (.error e, s') => (.error e, t, s')
  | (.ok _, s') =>
      match ops.wait_blocking t s' with
      | (_, s'') => (.error timeoutError, t, s'')

/-- The continuation of `wait_with_timeout` once the deadline has
been reached without a status (wait_policy.cc lines 233-257):
`terminate`, poll through the grace window (a status appearing there
is reported as the `timeout` error), then escalate. -/
def afterDeadline (ops : WaitOps σ) (kill_grace : Nat) (t : Nat) (s : σ) :
    Except Error ExitStatus × Nat × σ :=
  match ops.terminate t s with
  | (.error e, s') => (.error e, t, s')
  | (.ok _, s') =>
      let grace_deadline := t + kill_grace
      match gracePhase ops grace_deadline t s' with
      | (some r, t', s'') => (r, t', s'')
      | (none, t', s'') => afterGrace ops t' s''

/-- wait_policy.cc `wait_with_timeout`: no timeout means a blocking
wait; otherwise poll until the deadline, returning any result seen
there, and escalate past the deadline.  Returns the result, the
final time, and the final world state. -/
def wait_with_timeout (ops : WaitOps σ) (timeout : Option Nat)
    (kill_grace : Nat) (t : Nat) (s : σ) : Except Error ExitStatus × Nat × σ :=
  match timeout with
  | none =>
      match ops.wait_blocking t s with
      | (r, s') => (r, t, s')
  | some tmo =>
      let deadline := t + tmo
      match pollPhase ops deadline t s with
      | (some r, t', s') => (r, t', s')
      | (none, t', s') => afterDeadline ops kill_grace t' s'

/-- Call counters for the wait-policy operations, mirroring `TestOps`
in timeout_policy_test.cc. -/
structure CallLog where
  try_calls : Nat := 0
  terminate_calls : Nat := 0
  kill_calls : Nat := 0
  blocking_calls : Nat := 0
deriving DecidableEq, Repr

/-- Wait operations of a child that exits at absolute time
`exit_time` with status `st`: `try_wait` reports the status exactly
when the current time has reached `exit_time`; every operation
succeeds and is counted. -/
def childOps (exit_time : Nat) (st : ExitStatus) : WaitOps CallLog where
  try_wait t s :=
    (.ok (if exit_time ≤ t then some st else none),
     { s with try_calls := s.try_calls + 1 })
  wait_blocking _ s := (.ok st, { s with blocking_calls := s.blocking_calls + 1 })
  terminate _ s := (.ok (), { s with terminate_calls := s.terminate_calls + 1 })
  kill _ s := (.ok (), { s with kill_calls := s.kill_calls + 1 })

/-! ## Executable path resolution (posix_backend.cc) -/

/-- Whether a (POSIX, byte-oriented) string contains a character;
`std::string::find(c) != npos`. -/
def containsChar (s : String) (c : Char) : Bool := s.data.contains c

/-- Whether a POSIX path is absolute (`std::filesystem::path`
absoluteness: it begins with the separator). -/
def headIsSlash (s : String) : Bool :=
  match s.data with
  | [] => false
  | ch :: _ => ch == '/'

/-- Whether a POSIX path ends with the separator (so that appending
needs no extra one). -/
def endsWithSlash (s : String) : Bool :=
  match s.data.getLast? with
  | some c => c == '/'
  | none => false

/-- `std::filesystem::path::operator/`: an absolute right side
replaces the left; otherwise the separator is inserted as needed. -/
def pathAppend (a b : String) : String :=
  if headIsSlash b then b
  else if a = "" then b
  else if endsWithSlash a then a ++ b
  else a ++ "/" ++ b

/-- posix_backend.cc `find_env_value`: first `KEY=`-headed entry in
the envp yields its value (the byte-level compare and index of the C++
are modelled on the character data). -/
def find_env_value (key : String) : List String → Option String
  | [] => none
  | entry :: rest =>
      if (key.data ++ ['=']).isPrefixOf entry.data then
        some (String.mk (entry.data.drop (key.data.length + 1)))
      else find_env_value key rest

/-- posix_backend.cc `resolve_search_dir`: empty component means `.`;
a relative component is anchored at the requested `cwd`. -/
def resolve_search_dir (raw_dir : String) (cwd : Option String) : String :=
  let dir := if raw_dir = "" then "." else raw_dir
  match cwd with
  | some c => if headIsSlash dir then dir else pathAppend c dir
  | none => dir

/-- The byte-wise `:` split of resolve_exec_path's scan loop
(`path_value.find(start, \':\')` iteration). -/
def splitOnColon : List Char → List (List Char)
  | [] => [[]]
  | ch :: rest =>
      if ch = ':' then [] :: splitOnColon rest
      else
        match splitOnColon rest with
        | [] => [[ch]]
        | g :: gs => (ch :: g) :: gs

/-- The `PATH` split of resolve_exec_path's scan loop: `:`-separated
components, empty components meaning `.`. -/
def splitPath (path_value : String) : List String :=
  (splitOnColon path_value.data).map
    (fun g => if g = [] then "." else String.mk g)

/-- The candidate scan of `resolve_exec_path` (lines 137-151):
first component whose joined candidate passes the `access(X_OK)`
check, modelled by the oracle `isExec`. -/
def searchPathLoop (argv0 : String) (cwd : Option String)
    (isExec : String → Bool) : List String → Option String
  | [] => none
  | dir :: rest =>
      let candidate := pathAppend (resolve_search_dir dir cwd) argv0
      if isExec candidate then some candidate
      else searchPathLoop argv0 cwd isExec rest

/-- posix_backend.cc `resolve_exec_path`: names containing a slash are
returned as-is; otherwise the `PATH` entry of the resolved envp (or
the built-in default `/usr/bin:/bin`) is scanned, and a fruitless scan
returns the unmodified name.  The fallback spawn path passes the
result straight to `execve` (line 693). -/
def resolve_exec_path (argv0 : String) (envp : List String)
    (cwd : Option String) (isExec : String → Bool) : String :=
  if containsChar argv0 '/' then argv0
  else
    let path_value :=
      match find_env_value "PATH" envp with
      | some v => v
      | none => "/usr/bin:/bin"
    if path_value = "" then argv0
    else
      match searchPathLoop argv0 cwd isExec (splitPath path_value) with
      | some candidate => candidate
      | none => argv0

/-! ## Concrete fixtures used by witnesses and counterexamples -/

/-- A backend whose waits are pure: stage pid 1 exits with code 5,
every other stage exits with code 0 (the per-stage statuses of the
pipefail witness scenario). -/
def pidStatus (sp : Spawned) : ExitStatus :=
  if sp.pid = 1 then ExitStatus.exited 5 0 else ExitStatus.exited 0 0

/-- A stateless world over `Unit` whose `wait` returns `pidStatus`;
the remaining operations are unused stubs. -/
def pureWaitWorld : World Unit where
  backend :=
    { spawn := fun _ s => (.error { code := .domain .spawn_failed, context := "" }, s)
      wait := fun sp _ _ s => (.ok (pidStatus sp), s)
      try_wait := fun _ s => (.ok none, s)
      terminate := fun _ s => (.ok (), s)
      kill := fun _ s => (.ok (), s) }
  create_pipe := fun s => (.error { code := .domain .pipe_failed, context := "" }, s)

/-- A two-stage pipeline-child impl with pipefail on: stage pids 1
and 2. -/
def pipefailImpl : PipelineChildImpl :=
  { spawned := [{ pid := 1 }, { pid := 2 }], pipefail := true }

/-- A command with `merge_stderr_into_stdout` set whose stderr
selection is the invalid `fd(-1)`. -/
def mergeBadStderrCmd : Command :=
  { argv := ["prog"]
    opts := { merge_stderr_into_stdout := true }
    stderr_sel := some (Stdio.fd (-1)) }

/-- The same command with no stderr selection. -/
def mergeNoneStderrCmd : Command :=
  { argv := ["prog"]
    opts := { merge_stderr_into_stdout := true } }

/-- The `SpawnSpec` produced by lowering `mergeNoneStderrCmd` against
an empty environment in spawn mode. -/
def mergeNoneStderrSpec : SpawnSpec :=
  { argv := ["prog"]
    stderr_spec := dupStdoutSpec
    opts := { merge_stderr_into_stdout := true } }

/-- The conditions under which the stdin slot fails validation: an
`fd(n)` with `n < 0`, or a file selection carrying a non-readable
open mode. -/
def stdinSelInvalid (sel : Option Stdio) : Prop :=
  match sel with
  | some (Stdio.fd n) => n < 0
  | some (Stdio.file _ (some m) _) => mode_is_readable m = false
  | _ => False

/-- The conditions under which a stdout or stderr slot fails
validation: an `fd(n)` with `n < 0`, or a file selection carrying a
non-writable open mode. -/
def outSelInvalid (sel : Option Stdio) : Prop :=
  match sel with
  | some (Stdio.fd n) => n < 0
  | some (Stdio.file _ (some m) _) => mode_is_writable m = false
  | _ => False

/-- A command whose stdin selection is the invalid `fd(-7)`. -/
def badStdinCmd : Command :=
  { argv := ["x"], stdin_sel := some (Stdio.fd (-7)) }

/-- Observable state of the fake backend mirroring `FakeBackend` in
backend_injection_test.cc: spawn-call count, pids given to `kill` and
to `wait`, and a fresh-fd counter for `create_pipe`. -/
structure FakeState where
  spawn_calls : Nat := 0
  kill_pids : List Int := []
  wait_pids : List Int := []
  next_fd : Int := 10
deriving DecidableEq, Repr

/-- The world of the `PipelineSpawnFailureCleansUpStartedStages`
scenario: the second spawn call fails with `spawn_failed`
(`fail_on_spawn_call = 2`); successful spawns get pid `100 + call`;
`kill` and `wait` record the targeted pid. -/
def failSecondSpawnWorld : World FakeState where
  backend :=
    { spawn := fun spec s =>
        let n := s.spawn_calls + 1
        if n = 2 then
          (.error { code := .domain .spawn_failed, context := "spawn" },
           { s with spawn_calls := n })
        else
          (.ok { pid := 100 + (n : Int)
                 pgid := if spec.opts.new_process_group then
                     some (100 + (n : Int))
                   else spec.process_group
                 new_process_group := spec.opts.new_process_group },
           { s with spawn_calls := n })
      wait := fun sp _ _ s =>
        (.ok (ExitStatus.exited 0 0),
         { s with wait_pids := s.wait_pids ++ [sp.pid] })
      try_wait := fun _ s => (.ok none, s)
      terminate := fun _ s => (.ok (), s)
      kill := fun sp s =>
        (.ok (), { s with kill_pids := s.kill_pids ++ [sp.pid] }) }
  create_pipe := fun s =>
    (.ok (s.next_fd, s.next_fd + 1), { s with next_fd := s.next_fd + 2 })

/-- The three-stage pipeline `echo | cat | cat` of the cleanup test. -/
def echoCatCatPipeline : Pipeline :=
  { stages := [{ argv := ["echo"] }, { argv := ["cat"] }, { argv := ["cat"] }] }

/-! ## Theorems -/
/-- Every error produced by `resolve_stdio` carries the
`invalid_stdio` code. -/
theorem resolve_stdio_error_invalid (value : Option Stdio) (pd : Bool)
    (target : StdioTarget) (e : Error)
    (h : resolve_stdio value pd target = Except.error e) :
    e.code = ErrCode.domain Errc.invalid_stdio := by
  rcases value with _ | (_ | _ | _ | n | ⟨p, m, pr⟩)
  · simp [resolve_stdio] at h
  · simp [resolve_stdio] at h
  · simp [resolve_stdio] at h
  · simp [resolve_stdio] at h
  · simp only [resolve_stdio] at h
    by_cases hn : n < 0
    · rw [if_pos hn] at h
      simp only [Except.error.injEq] at h
      subst h
      rfl
    · rw [if_neg hn] at h
      exact Except.noConfusion h
  · simp only [resolve_stdio] at h
    cases target with
    | stdin =>
        simp only [] at h
        by_cases hm : mode_is_readable (m.getD (default_open_mode .stdin)) = true
        · rw [if_pos hm] at h
          exact Except.noConfusion h
        · rw [if_neg hm] at h
          simp only [Except.error.injEq] at h
          subst h
          rfl
    | stdout =>
        simp only [] at h
        by_cases hm : mode_is_writable (m.getD (default_open_mode .stdout)) = true
        · rw [if_pos hm] at h
          exact Except.noConfusion h
        · rw [if_neg hm] at h
          simp only [Except.error.injEq] at h
          subst h
          rfl
    | stderr =>
        simp only [] at h
        by_cases hm : mode_is_writable (m.getD (default_open_mode .stderr)) = true
        · rw [if_pos hm] at h
          exact Except.noConfusion h
        · rw [if_neg hm] at h
          simp only [Except.error.injEq] at h
          subst h
          rfl

/-- An invalid stdin selection makes `resolve_stdio` fail with
`invalid_stdio`. -/
theorem resolve_stdio_stdin_invalid (sel : Option Stdio) (pd : Bool)
    (hinv : stdinSelInvalid sel) :
    ∃ e, resolve_stdio sel pd .stdin = Except.error e ∧
      e.code = ErrCode.domain Errc.invalid_stdio := by
  rcases sel with _ | (_ | _ | _ | n | ⟨p, m, pr⟩)
  · exact hinv.elim
  · exact hinv.elim
  · exact hinv.elim
  · exact hinv.elim
  · have hn : n < 0 := hinv
    exact ⟨{ code := .domain .invalid_stdio, context := "fd" },
      by simp [resolve_stdio, hn], rfl⟩
  · rcases m with _ | mm
    · exact hinv.elim
    · have hm : mode_is_readable mm = false := hinv
      exact ⟨{ code := .domain .invalid_stdio, context := "file_mode" },
        by simp [resolve_stdio, hm], rfl⟩

/-- An invalid stdout/stderr selection makes `resolve_stdio` fail
with `invalid_stdio`. -/
theorem resolve_stdio_out_invalid (sel : Option Stdio) (pd : Bool)
    (target : StdioTarget) (ht : target ≠ .stdin)
    (hinv : outSelInvalid sel) :
    ∃ e, resolve_stdio sel pd target = Except.error e ∧
      e.code = ErrCode.domain Errc.invalid_stdio := by
  rcases sel with _ | (_ | _ | _ | n | ⟨p, m, pr⟩)
  · exact hinv.elim
  · exact hinv.elim
  · exact hinv.elim
  · exact hinv.elim
  · have hn : n < 0 := hinv
    exact ⟨{ code := .domain .invalid_stdio, context := "fd" },
      by simp [resolve_stdio, hn], rfl⟩
  · rcases m with _ | mm
    · exact hinv.elim
    · have hm : mode_is_writable mm = false := hinv
      cases target with
      | stdin => exact absurd rfl ht
      | stdout =>
          exact ⟨{ code := .domain .invalid_stdio, context := "file_mode" },
            by simp [resolve_stdio, hm], rfl⟩
      | stderr =>
          exact ⟨{ code := .domain .invalid_stdio, context := "file_mode" },
            by simp [resolve_stdio, hm], rfl⟩

/-- C9: `ExitStatus::exited(c, n).code()` is `some c`,
`ExitStatus::other(n).code()` is `none`, and `success()` holds exactly
when the kind is `exited` and the code equals 0. -/
theorem exit_status_code_success_characterisation :
    (∀ (c : Int) (n : Nat), (ExitStatus.exited c n).code = some c) ∧
    (∀ n : Nat, (ExitStatus.other n).code = none) ∧
    (∀ s : ExitStatus,
      s.success = true ↔ s.kind = ExitKind.exited ∧ s.code = some 0) := by
  refine ⟨fun c n => rfl, fun n => rfl, fun s => ?_⟩
  cases s with
  | mk k c n =>
      cases k <;>
        simp [ExitStatus.success, ExitStatus.kind, ExitStatus.code]

/-- C10: on the fallback path, a program name without a slash resolved
against an envp carrying no `PATH` entry is searched in the built-in
default path `/usr/bin:/bin`, and when no candidate passes the
executability check the unmodified name is returned (and handed to
`execve`). -/
theorem resolve_exec_path_default_search (argv0 : String)
    (envp : List String) (cwd : Option String) (isExec : String → Bool)
    (hslash : argv0.data.contains '/' = false)
    (hpath : find_env_value "PATH" envp = none) :
    resolve_exec_path argv0 envp cwd isExec =
      (if isExec ("/usr/bin/" ++ argv0) = true then "/usr/bin/" ++ argv0
       else if isExec ("/bin/" ++ argv0) = true then "/bin/" ++ argv0
       else argv0) := by
  have hcc : containsChar argv0 '/' = false := hslash
  have hhead : headIsSlash argv0 = false := by
    unfold headIsSlash
    cases hd : argv0.data with
    | nil => rfl
    | cons ch rest =>
        rw [hd] at hslash
        have hne : ch ≠ '/' := by
          intro h
          subst h
          simp at hslash
        simpa using hne
  have h1 : pathAppend "/usr/bin" argv0 = "/usr/bin/" ++ argv0 := by
    simp only [pathAppend, hhead, Bool.false_eq_true, if_false]
    rfl
  have h2 : pathAppend "/bin" argv0 = "/bin/" ++ argv0 := by
    simp only [pathAppend, hhead, Bool.false_eq_true, if_false]
    rfl
  have hdir1 : resolve_search_dir "/usr/bin" cwd = "/usr/bin" := by
    cases cwd <;> rfl
  have hdir2 : resolve_search_dir "/bin" cwd = "/bin" := by
    cases cwd <;> rfl
  have hloop :
      searchPathLoop argv0 cwd isExec (splitPath "/usr/bin:/bin") =
        (if isExec ("/usr/bin/" ++ argv0) = true then some ("/usr/bin/" ++ argv0)
         else if isExec ("/bin/" ++ argv0) = true then some ("/bin/" ++ argv0)
         else none) := by
    have hsplit : splitPath "/usr/bin:/bin" = ["/usr/bin", "/bin"] := by decide
    rw [hsplit]
    simp only [searchPathLoop, hdir1, hdir2, h1, h2]
  have hne : ("/usr/bin:/bin" = "") = False := by decide
  unfold resolve_exec_path
  rw [hcc, hpath]
  simp only [Bool.false_eq_true, if_false, hloop, hne]
  by_cases hx1 : isExec ("/usr/bin/" ++ argv0) = true
  · simp [hx1]
  · simp only [Bool.not_eq_true] at hx1
    by_cases hx2 : isExec ("/bin/" ++ argv0) = true
    · simp [hx1, hx2]
    · simp only [Bool.not_eq_true] at hx2
      simp [hx1, hx2]

/-- Witness for C10 at a concrete input. -/
theorem resolve_exec_path_default_search_witness :
    ("prog".data.contains '/' = false ∧
      find_env_value "PATH" (["HOME=/root"] : List String) = none) ∧
    resolve_exec_path "prog" ["HOME=/root"] none (fun _ => false) =
      (if (fun (_ : String) => false) ("/usr/bin/" ++ "prog") = true then
        "/usr/bin/" ++ "prog"
       else if (fun (_ : String) => false) ("/bin/" ++ "prog") = true then
        "/bin/" ++ "prog"
       else "prog") :=
  ⟨⟨by decide, by decide⟩,
   resolve_exec_path_default_search "prog" ["HOME=/root"] none (fun _ => false)
     (by decide) (by decide)⟩

/-- C8: for both handle kinds, `take_stdin/out/err` yield the
corresponding endpoint at most once: the first call after spawn
returns the endpoint held for that stream (if any), a repeated call
returns `none`, and taking one stream leaves the others untouched. -/
theorem take_pipe_endpoints_at_most_once :
    (∀ sp : Spawned,
      ((Child.from_spawned sp).take_stdin).fst = sp.stdin_fd ∧
      ((Child.from_spawned sp).take_stdout).fst = sp.stdout_fd ∧
      ((Child.from_spawned sp).take_stderr).fst = sp.stderr_fd) ∧
    (∀ c : Child,
      (((c.take_stdin).snd).take_stdin).fst = none ∧
      (((c.take_stdout).snd).take_stdout).fst = none ∧
      (((c.take_stderr).snd).take_stderr).fst = none) ∧
    (∀ c : Child,
      (((c.take_stdout).snd).take_stdin).fst = (c.take_stdin).fst ∧
      (((c.take_stderr).snd).take_stdin).fst = (c.take_stdin).fst ∧
      (((c.take_stdin).snd).take_stdout).fst = (c.take_stdout).fst ∧
      (((c.take_stderr).snd).take_stdout).fst = (c.take_stdout).fst ∧
      (((c.take_stdin).snd).take_stderr).fst = (c.take_stderr).fst ∧
      (((c.take_stdout).snd).take_stderr).fst = (c.take_stderr).fst) ∧
    (∀ (sps : List Spawned) (pf npg : Bool) (pg : Option Int),
      ((PipelineChild.from_spawned sps pf npg pg).take_stdin).fst =
        (match sps.head? with | some f => f.stdin_fd | none => none) ∧
      ((PipelineChild.from_spawned sps pf npg pg).take_stdout).fst =
        (match sps.getLast? with | some l => l.stdout_fd | none => none) ∧
      ((PipelineChild.from_spawned sps pf npg pg).take_stderr).fst =
        (match sps.getLast? with | some l => l.stderr_fd | none => none)) ∧
    (∀ pc : PipelineChild,
      (((pc.take_stdin).snd).take_stdin).fst = none ∧
      (((pc.take_stdout).snd).take_stdout).fst = none ∧
      (((pc.take_stderr).snd).take_stderr).fst = none) ∧
    (∀ pc : PipelineChild,
      (((pc.take_stdout).snd).take_stdin).fst = (pc.take_stdin).fst ∧
      (((pc.take_stderr).snd).take_stdin).fst = (pc.take_stdin).fst ∧
      (((pc.take_stdin).snd).take_stdout).fst = (pc.take_stdout).fst ∧
      (((pc.take_stderr).snd).take_stdout).fst = (pc.take_stdout).fst ∧
      (((pc.take_stdin).snd).take_stderr).fst = (pc.take_stderr).fst ∧
      (((pc.take_stdout).snd).take_stderr).fst = (pc.take_stderr).fst) := by
  refine ⟨fun sp => ?_, fun c => ?_, fun c => ?_,
    fun sps pf npg pg => ?_, fun pc => ?_, fun pc => ?_⟩
  · exact ⟨rfl, rfl, rfl⟩
  · rcases c with ⟨_ | i⟩ <;>
      simp [Child.take_stdin, Child.take_stdout, Child.take_stderr]
  · rcases c with ⟨_ | i⟩ <;>
      simp [Child.take_stdin, Child.take_stdout, Child.take_stderr]
  · exact ⟨rfl, rfl, rfl⟩
  · rcases pc with ⟨_ | i⟩ <;>
      simp [PipelineChild.take_stdin, PipelineChild.take_stdout,
        PipelineChild.take_stderr]
  · rcases pc with ⟨_ | i⟩ <;>
      simp [PipelineChild.take_stdin, PipelineChild.take_stdout,
        PipelineChild.take_stderr]

/-- The pipefail scan returns the first non-success status, else the
fallback. -/
theorem aggregateLoop_eq_find (back : ExitStatus) (l : List ExitStatus) :
    aggregateLoop back l = (l.find? (fun st => !st.success)).getD back := by
  induction l with
  | nil => rfl
  | cons st rest ih =>
      by_cases h : st.success = true
      · simp [aggregateLoop, List.find?_cons, h, ih]
      · simp only [Bool.not_eq_true] at h
        simp [aggregateLoop, List.find?_cons, h]

/-- When the backend's wait is the pure status function `f`, the
collection loop succeeds with the stage statuses in stage order. -/
theorem collectWaits_pure (w : World σ) (f : Spawned → ExitStatus)
    (hw : ∀ sp s, (w.backend.wait sp none 0 s).fst = Except.ok (f sp)) :
    ∀ (l : List Spawned) (s : σ),
      (collectWaits w l s).fst = Except.ok (l.map f) := by
  intro l
  induction l with
  | nil => intro s; rfl
  | cons sp rest ih =>
      intro s
      have hc := hw sp s
      rcases hpair : w.backend.wait sp none 0 s with ⟨r, s2⟩
      rw [hpair] at hc
      simp only at hc
      subst hc
      have hr := ih s2
      rcases hrest : collectWaits w rest s2 with ⟨r2, s3⟩
      rw [hrest] at hr
      simp only at hr
      subst hr
      unfold collectWaits
      rw [hpair]
      simp [hrest]

/-- C4: when every per-stage wait yields the status `f` of its stage,
`PipelineChild::wait` collects the statuses in stage order and the
aggregate is: with pipefail on, the first non-success stage status (in
stage order) or the last stage's status when all succeed; with
pipefail off, always the last stage's status. -/
theorem pipeline_wait_aggregate_rule (w : World σ) (f : Spawned → ExitStatus)
    (i : PipelineChildImpl) (sp0 : Spawned) (sps : List Spawned) (s : σ)
    (hw : ∀ sp s, (w.backend.wait sp none 0 s).fst = Except.ok (f sp))
    (hsp : i.spawned = sp0 :: sps) :
    (PipelineChild.wait w { impl := some i } s).fst =
      Except.ok
        { stages := (sp0 :: sps).map f
          aggregate :=
            if i.pipefail then
              (((sp0 :: sps).map f).find? (fun st => !st.success)).getD
                (((sp0 :: sps).map f).getLast (by simp))
            else ((sp0 :: sps).map f).getLast (by simp) } := by
  rcases i with ⟨isp, ipf, inpg, ipg, p1, p2, p3⟩
  simp only at hsp
  subst hsp
  have hcol := collectWaits_pure w f hw (sp0 :: sps) s
  rcases hpair : collectWaits w (sp0 :: sps) s with ⟨r, s2⟩
  rw [hpair] at hcol
  simp only at hcol
  subst hcol
  simp only [PipelineChild.wait, hpair, List.map_cons]
  cases hpf : ipf with
  | false => simp
  | true => simp [aggregateLoop_eq_find]

/-- Witness for C4: a two-stage pipeline (stage statuses
`exited 5` then `exited 0`) with pipefail on aggregates to the first
failing status `exited 5`. -/
theorem pipeline_wait_aggregate_rule_witness :
    ((∀ sp s, ((pureWaitWorld).backend.wait sp none 0 s).fst =
        Except.ok (pidStatus sp)) ∧
      pipefailImpl.spawned = { pid := 1 } :: [{ pid := 2 }]) ∧
    ((PipelineChild.wait pureWaitWorld { impl := some pipefailImpl } ()).fst =
      Except.ok
        { stages := ({ pid := 1 } :: [{ pid := 2 }]).map pidStatus
          aggregate :=
            if pipefailImpl.pipefail then
              ((({ pid := 1 } :: [{ pid := 2 }]).map pidStatus).find?
                  (fun st => !st.success)).getD
                ((({ pid := 1 } :: [{ pid := 2 }]).map pidStatus).getLast (by simp))
            else
              (({ pid := 1 } :: [{ pid := 2 }]).map pidStatus).getLast (by simp) } ∧
      (if pipefailImpl.pipefail then
          ((({ pid := 1 } :: [{ pid := 2 }]).map pidStatus).find?
              (fun st => !st.success)).getD
            ((({ pid := 1 } :: [{ pid := 2 }]).map pidStatus).getLast (by simp))
        else
          (({ pid := 1 } :: [{ pid := 2 }]).map pidStatus).getLast (by simp)) =
        ExitStatus.exited 5 0) :=
  ⟨⟨fun _ _ => rfl, rfl⟩,
   pipeline_wait_aggregate_rule pureWaitWorld pidStatus pipefailImpl
     { pid := 1 } [{ pid := 2 }] () (fun _ _ => rfl) rfl,
   by decide⟩

/-- C5 (counterexample to the claim as stated): with
`merge_stderr_into_stdout` set, lowering still validates the stderr
selection before the merge replacement, so the invalid selection
`fd(-1)` yields the `invalid_stdio` error and no `SpawnSpec` at all,
while the same command without a stderr selection lowers to a spec
whose stderr slot is `dup_stdout`.  The result therefore depends on
the stderr selection's validity. -/
theorem lower_command_merge_counterexample :
    mergeBadStderrCmd.opts.merge_stderr_into_stdout = true ∧
    lower_command mergeBadStderrCmd [] .spawn none =
      Except.error { code := .domain .invalid_stdio, context := "fd" } ∧
    (¬ ∃ spec : SpawnSpec,
        lower_command mergeBadStderrCmd [] .spawn none = Except.ok spec) ∧
    lower_command mergeNoneStderrCmd [] .spawn none =
      Except.ok mergeNoneStderrSpec ∧
    mergeNoneStderrSpec.stderr_spec = dupStdoutSpec := by
  refine ⟨rfl, rfl, ?_, rfl, rfl⟩
  rintro ⟨spec, h⟩
  rw [show lower_command mergeBadStderrCmd [] .spawn none =
      Except.error { code := .domain .invalid_stdio, context := "fd" } from rfl] at h
  exact Except.noConfusion h

/-- C5 (amended): whenever lowering succeeds for a command with
`merge_stderr_into_stdout` set, the produced spec's stderr slot is
`dup_stdout`, whatever stderr selection the command or an override
carried. -/
theorem lower_command_merge_stderr_dup_stdout
    (cmd : Command) (env : List String) (mode : SpawnMode)
    (ov : Option StdioOverride) (spec : SpawnSpec)
    (hm : cmd.opts.merge_stderr_into_stdout = true)
    (hok : lower_command cmd env mode ov = Except.ok spec) :
    spec.stderr_spec = dupStdoutSpec := by
  unfold lower_command at hok
  by_cases ha : cmd.argv = []
  · rw [if_pos ha] at hok
    exact Except.noConfusion hok
  · rw [if_neg ha] at hok
    simp only [] at hok
    rcases h1 : resolve_stdio (effectiveSel cmd.stdin_sel (ov.map (·.stdin_override)))
        false .stdin with e1 | sp1
    · rw [h1] at hok
      exact Except.noConfusion hok
    rw [h1] at hok
    rcases h2 : resolve_stdio (effectiveSel cmd.stdout_sel (ov.map (·.stdout_override)))
        (mode == SpawnMode.output) .stdout with e2 | sp2
    · rw [h2] at hok
      exact Except.noConfusion hok
    rw [h2] at hok
    rcases h3 : resolve_stdio (effectiveSel cmd.stderr_sel (ov.map (·.stderr_override)))
        (mode == SpawnMode.output) .stderr with e3 | sp3
    · rw [h3] at hok
      exact Except.noConfusion hok
    rw [h3] at hok
    simp only [hm, if_true, Except.ok.injEq] at hok
    rw [← hok]

/-- Witness for the amended C5 at a concrete input. -/
theorem lower_command_merge_stderr_dup_stdout_witness :
    (mergeNoneStderrCmd.opts.merge_stderr_into_stdout = true ∧
      lower_command mergeNoneStderrCmd [] .spawn none =
        Except.ok mergeNoneStderrSpec) ∧
    mergeNoneStderrSpec.stderr_spec = dupStdoutSpec :=
  ⟨⟨rfl, rfl⟩,
   lower_command_merge_stderr_dup_stdout mergeNoneStderrCmd [] .spawn none
     mergeNoneStderrSpec rfl rfl⟩

/-- C6: `lower_command` fails with `empty_argv` exactly when argv is
empty, and when argv is non-empty an invalid effective stdio
selection — a stdin file selection carrying a non-readable mode, a
stdout/stderr file selection carrying a non-writable mode, or an
`fd(n)` with `n < 0` in any slot — makes it fail with
`invalid_stdio`.  Lowering is a pure function, so these validations
happen before any system call. -/
theorem lower_command_validation (cmd : Command) (env : List String)
    (mode : SpawnMode) (ov : Option StdioOverride) :
    ((∃ e, lower_command cmd env mode ov = Except.error e ∧
        e.code = ErrCode.domain Errc.empty_argv) ↔ cmd.argv = []) ∧
    (cmd.argv ≠ [] →
      (stdinSelInvalid (effectiveSel cmd.stdin_sel (ov.map (·.stdin_override))) ∨
        outSelInvalid (effectiveSel cmd.stdout_sel (ov.map (·.stdout_override))) ∨
        outSelInvalid (effectiveSel cmd.stderr_sel (ov.map (·.stderr_override)))) →
      ∃ e, lower_command cmd env mode ov = Except.error e ∧
        e.code = ErrCode.domain Errc.invalid_stdio) := by
  constructor
  · constructor
    · rintro ⟨e, he, hc⟩
      by_contra ha
      unfold lower_command at he
      rw [if_neg ha] at he
      simp only [] at he
      rcases h1 : resolve_stdio (effectiveSel cmd.stdin_sel (ov.map (·.stdin_override)))
          false .stdin with e1 | sp1
      · rw [h1] at he
        simp only [Except.error.injEq] at he
        subst he
        have := resolve_stdio_error_invalid _ _ _ _ h1
        rw [this] at hc
        exact ErrCode.noConfusion hc (fun h => Errc.noConfusion h)
      rw [h1] at he
      rcases h2 : resolve_stdio (effectiveSel cmd.stdout_sel (ov.map (·.stdout_override)))
          (mode == SpawnMode.output) .stdout with e2 | sp2
      · rw [h2] at he
        simp only [Except.error.injEq] at he
        subst he
        have := resolve_stdio_error_invalid _ _ _ _ h2
        rw [this] at hc
        exact ErrCode.noConfusion hc (fun h => Errc.noConfusion h)
      rw [h2] at he
      rcases h3 : resolve_stdio (effectiveSel cmd.stderr_sel (ov.map (·.stderr_override)))
          (mode == SpawnMode.output) .stderr with e3 | sp3
      · rw [h3] at he
        simp only [Except.error.injEq] at he
        subst he
        have := resolve_stdio_error_invalid _ _ _ _ h3
        rw [this] at hc
        exact ErrCode.noConfusion hc (fun h => Errc.noConfusion h)
      rw [h3] at he
      by_cases hmg : cmd.opts.merge_stderr_into_stdout = true
      · simp [hmg] at he
      · simp only [Bool.not_eq_true] at hmg
        simp [hmg] at he
    · intro ha
      exact ⟨{ code := .domain .empty_argv, context := "argv" },
        by simp [lower_command, ha], rfl⟩
  · intro ha hbad
    unfold lower_command
    rw [if_neg ha]
    simp only []
    rcases h1 : resolve_stdio (effectiveSel cmd.stdin_sel (ov.map (·.stdin_override)))
        false .stdin with e1 | sp1
    · rw [h1]
      exact ⟨e1, rfl, resolve_stdio_error_invalid _ _ _ _ h1⟩
    simp only [h1]
    rcases h2 : resolve_stdio (effectiveSel cmd.stdout_sel (ov.map (·.stdout_override)))
        (mode == SpawnMode.output) .stdout with e2 | sp2
    · rw [h2]
      exact ⟨e2, rfl, resolve_stdio_error_invalid _ _ _ _ h2⟩
    simp only [h2]
    rcases h3 : resolve_stdio (effectiveSel cmd.stderr_sel (ov.map (·.stderr_override)))
        (mode == SpawnMode.output) .stderr with e3 | sp3
    · rw [h3]
      exact ⟨e3, rfl, resolve_stdio_error_invalid _ _ _ _ h3⟩
    exfalso
    rcases hbad with hb | hb | hb
    · obtain ⟨e, he, _⟩ := resolve_stdio_stdin_invalid _ false hb
      rw [h1] at he
      exact Except.noConfusion he
    · obtain ⟨e, he, _⟩ := resolve_stdio_out_invalid _ (mode == SpawnMode.output)
        .stdout (by simp) hb
      rw [h2] at he
      exact Except.noConfusion he
    · obtain ⟨e, he, _⟩ := resolve_stdio_out_invalid _ (mode == SpawnMode.output)
        .stderr (by simp) hb
      rw [h3] at he
      exact Except.noConfusion he

/-- Witness for C6: empty argv yields `empty_argv`, and a command
with the invalid stdin selection `fd(-7)` yields `invalid_stdio`. -/
theorem lower_command_validation_witness :
    (∃ e, lower_command { argv := [] } [] .spawn none = Except.error e ∧
      e.code = ErrCode.domain Errc.empty_argv) ∧
    (badStdinCmd.argv ≠ [] ∧
      stdinSelInvalid (effectiveSel badStdinCmd.stdin_sel
        (Option.map (fun o => o.stdin_override) (none : Option StdioOverride)))) ∧
    (∃ e, lower_command badStdinCmd [] .spawn none = Except.error e ∧
      e.code = ErrCode.domain Errc.invalid_stdio) :=
  ⟨(lower_command_validation { argv := [] } [] .spawn none).1.mpr rfl,
   ⟨by decide, show (-7 : Int) < 0 by decide⟩,
   (lower_command_validation badStdinCmd [] .spawn none).2 (by decide)
     (Or.inl (show (-7 : Int) < 0 by decide))⟩

/-- `charsLt` is transitive. -/
theorem charsLt_trans : ∀ as bs cs : List Char,
    charsLt as bs = true → charsLt bs cs = true → charsLt as cs = true := by
  intro as
  induction as with
  | nil =>
      intro bs cs h1 h2
      cases bs with
      | nil => simp [charsLt] at h1
      | cons b bs =>
          cases cs with
          | nil => simp [charsLt] at h2
          | cons c cs => simp [charsLt]
  | cons a as ih =>
      intro bs cs h1 h2
      cases bs with
      | nil => simp [charsLt] at h1
      | cons b bs =>
          cases cs with
          | nil => simp [charsLt] at h2
          | cons c cs =>
              simp only [charsLt] at h1 h2 ⊢
              by_cases hab : a.toNat < b.toNat
              · by_cases hbc : b.toNat < c.toNat
                · rw [if_pos (show a.toNat < c.toNat by omega)]
                · rw [if_neg hbc] at h2
                  by_cases hcb : c.toNat < b.toNat
                  · rw [if_pos hcb] at h2
                    exact absurd h2 (by simp)
                  · rw [if_pos (show a.toNat < c.toNat by omega)]
              · rw [if_neg hab] at h1
                by_cases hba : b.toNat < a.toNat
                · rw [if_pos hba] at h1
                  exact absurd h1 (by simp)
                · rw [if_neg hba] at h1
                  by_cases hbc : b.toNat < c.toNat
                  · rw [if_pos (show a.toNat < c.toNat by omega)]
                  · rw [if_neg hbc] at h2
                    by_cases hcb : c.toNat < b.toNat
                    · rw [if_pos hcb] at h2
                      exact absurd h2 (by simp)
                    · rw [if_neg hcb] at h2
                      rw [if_neg (show ¬ a.toNat < c.toNat by omega),
                        if_neg (show ¬ c.toNat < a.toNat by omega)]
                      exact ih bs cs h1 h2

/-- A pair of unequal keys is ordered one way or the other. -/
theorem charsLt_flip : ∀ as bs : List Char,
    charsLt as bs = false → as ≠ bs → charsLt bs as = true := by
  intro as
  induction as with
  | nil =>
      intro bs h1 h2
      cases bs with
      | nil => exact absurd rfl h2
      | cons b bs => simp [charsLt] at h1
  | cons a as ih =>
      intro bs h1 h2
      cases bs with
      | nil => simp [charsLt]
      | cons b bs =>
          simp only [charsLt] at h1 ⊢
          by_cases hab : a.toNat < b.toNat
          · rw [if_pos hab] at h1
            exact absurd h1 (by simp)
          · rw [if_neg hab] at h1
            by_cases hba : b.toNat < a.toNat
            · rw [if_pos hba]
            · rw [if_neg hba] at h1
              have hv : a.toNat = b.toNat := by omega
              have hac : a = b := Char.ext (UInt32.ext hv)
              subst hac
              rw [if_neg hba, if_neg hab]
              exact ih bs h1 (fun hr => h2 (by rw [hr]))

/-- `charsLt` is irreflexive. -/
theorem charsLt_irrefl : ∀ as : List Char, charsLt as as = false := by
  intro as
  induction as with
  | nil => rfl
  | cons a as ih =>
      simp only [charsLt]
      rw [if_neg (lt_irrefl a.toNat), if_neg (lt_irrefl a.toNat)]
      exact ih

/-- `strLt` is transitive. -/
theorem strLt_trans (a b c : String) (h1 : strLt a b = true)
    (h2 : strLt b c = true) : strLt a c = true :=
  charsLt_trans _ _ _ h1 h2

/-- Unequal strings are ordered one way or the other. -/
theorem strLt_flip (a b : String) (h1 : strLt a b = false) (h2 : a ≠ b) :
    strLt b a = true := by
  apply charsLt_flip _ _ h1
  intro hd
  apply h2
  cases a
  cases b
  exact congrArg String.mk hd

/-- `strLt` implies inequality. -/
theorem strLt_ne (a b : String) (h : strLt a b = true) : a ≠ b := by
  intro he
  subst he
  rw [show strLt a a = charsLt a.data a.data from rfl, charsLt_irrefl] at h
  exact Bool.noConfusion h

/-- Everything in an insert-or-assign result is the new binding or an
old one. -/
theorem mem_envInsert (k v : String) (m : EnvMap) (x : String × String)
    (hx : x ∈ envInsert k v m) : x = (k, v) ∨ x ∈ m := by
  induction m with
  | nil => simpa [envInsert] using hx
  | cons p rest ih =>
      rcases p with ⟨k', v'⟩
      unfold envInsert at hx
      by_cases h1 : strLt k k' = true
      · rw [if_pos h1] at hx
        simp only [List.mem_cons] at hx ⊢
        tauto
      · rw [if_neg h1] at hx
        by_cases h2 : k = k'
        · rw [if_pos h2] at hx
          simp only [List.mem_cons] at hx ⊢
          tauto
        · rw [if_neg h2] at hx
          simp only [List.mem_cons] at hx ⊢
          rcases hx with hx | hx
          · tauto
          · rcases ih hx with h | h <;> tauto

/-- Insert-or-assign preserves strict key sortedness. -/
theorem envInsert_pairwise (k v : String) (m : EnvMap)
    (h : m.Pairwise (fun a b => strLt a.1 b.1 = true)) :
    (envInsert k v m).Pairwise (fun a b => strLt a.1 b.1 = true) := by
  induction m with
  | nil => simp [envInsert]
  | cons p rest ih =>
      rcases p with ⟨k', v'⟩
      rw [List.pairwise_cons] at h
      obtain ⟨hk', hrest⟩ := h
      unfold envInsert
      by_cases h1 : strLt k k' = true
      · rw [if_pos h1]
        refine List.Pairwise.cons ?_ (List.Pairwise.cons hk' hrest)
        intro b hb
        rcases List.mem_cons.mp hb with rfl | hb
        · exact h1
        · exact strLt_trans _ _ _ h1 (hk' _ hb)
      · rw [if_neg h1]
        by_cases h2 : k = k'
        · rw [if_pos h2]
          subst h2
          exact List.Pairwise.cons hk' hrest
        · rw [if_neg h2]
          refine List.Pairwise.cons ?_ (ih hrest)
          intro b hb
          rcases mem_envInsert k v rest b hb with hb' | hb'
          · subst hb'
            exact strLt_flip k k' (by simpa using h1) h2
          · exact hk' _ hb'

/-- Erasure yields a sublist. -/
theorem envErase_sublist (k : String) (m : EnvMap) :
    (envErase k m).Sublist m := by
  induction m with
  | nil => simp [envErase]
  | cons p rest ih =>
      rcases p with ⟨k', v'⟩
      unfold envErase
      by_cases h : k = k'
      · rw [if_pos h]
        exact List.sublist_cons_self _ _
      · rw [if_neg h]
        exact List.Sublist.cons₂ _ ih

/-- Erasure preserves strict key sortedness. -/
theorem envErase_pairwise (k : String) (m : EnvMap)
    (h : m.Pairwise (fun a b => strLt a.1 b.1 = true)) :
    (envErase k m).Pairwise (fun a b => strLt a.1 b.1 = true) :=
  h.sublist (envErase_sublist k m)

/-- Looking up the freshly assigned key. -/
theorem envLookup_envInsert_self (k v : String) (m : EnvMap) :
    envLookup k (envInsert k v m) = some v := by
  induction m with
  | nil => simp [envInsert, envLookup]
  | cons p rest ih =>
      rcases p with ⟨k', v'⟩
      unfold envInsert
      by_cases h1 : strLt k k' = true
      · rw [if_pos h1]
        simp [envLookup]
      · rw [if_neg h1]
        by_cases h2 : k = k'
        · rw [if_pos h2]
          simp [envLookup]
        · rw [if_neg h2]
          simp [envLookup, h2, ih]

/-- Assigning a key leaves every other key's lookup unchanged. -/
theorem envLookup_envInsert_ne (k k' v : String) (m : EnvMap)
    (hne : k' ≠ k) :
    envLookup k' (envInsert k v m) = envLookup k' m := by
  induction m with
  | nil => simp [envInsert, envLookup, hne]
  | cons p rest ih =>
      rcases p with ⟨k'', v''⟩
      unfold envInsert
      by_cases h1 : strLt k k'' = true
      · rw [if_pos h1]
        simp [envLookup, hne]
      · rw [if_neg h1]
        by_cases h2 : k = k''
        · rw [if_pos h2]
          subst h2
          simp [envLookup, hne]
        · rw [if_neg h2]
          by_cases h3 : k' = k''
          · simp [envLookup, h3]
          · simp [envLookup, h3, ih]

/-- A key different from every key of the map is absent. -/
theorem envLookup_eq_none_of_forall (k : String) (m : EnvMap)
    (h : ∀ x ∈ m, x.1 ≠ k) : envLookup k m = none := by
  induction m with
  | nil => rfl
  | cons p rest ih =>
      rcases p with ⟨k', v'⟩
      have hne : k ≠ k' := fun he => (h (k', v') (by simp)) he.symm
      simp only [envLookup, if_neg hne]
      exact ih (fun x hx => h x (by simp [hx]))

/-- On a sorted map, erasing a key removes it from lookup. -/
theorem envLookup_envErase_self (k : String) (m : EnvMap)
    (h : m.Pairwise (fun a b => strLt a.1 b.1 = true)) :
    envLookup k (envErase k m) = none := by
  induction m with
  | nil => rfl
  | cons p rest ih =>
      rcases p with ⟨k', v'⟩
      rw [List.pairwise_cons] at h
      obtain ⟨hk', hrest⟩ := h
      unfold envErase
      by_cases he : k = k'
      · rw [if_pos he]
        subst he
        exact envLookup_eq_none_of_forall k rest
          (fun x hx => (strLt_ne k x.1 (hk' x hx)).symm)
      · rw [if_neg he]
        simp only [envLookup, if_neg he]
        exact ih hrest

/-- Erasing a key leaves every other key's lookup unchanged. -/
theorem envLookup_envErase_ne (k k' : String) (m : EnvMap)
    (hne : k' ≠ k) :
    envLookup k' (envErase k m) = envLookup k' m := by
  induction m with
  | nil => rfl
  | cons p rest ih =>
      rcases p with ⟨k'', v''⟩
      unfold envErase
      by_cases he : k = k''
      · rw [if_pos he]
        subst he
        simp [envLookup, fun h => hne h]
      · rw [if_neg he]
        by_cases h3 : k' = k''
        · simp [envLookup, h3]
        · simp [envLookup, h3, ih]

/-- The base environment fold produces a sorted map. -/
theorem foldEnviron_pairwise (env : List String) :
    (foldEnviron env).Pairwise (fun a b => strLt a.1 b.1 = true) := by
  unfold foldEnviron
  suffices h : ∀ (l : List String) (m : EnvMap),
      m.Pairwise (fun a b => strLt a.1 b.1 = true) →
      (l.foldl
        (fun m entry =>
          match splitEnvEntry entry with
          | none => m
          | some (k, v) => envInsert k v m) m).Pairwise
        (fun a b => strLt a.1 b.1 = true) by
    exact h env [] List.Pairwise.nil
  intro l
  induction l with
  | nil => intro m hm; exact hm
  | cons e rest ih =>
      intro m hm
      simp only [List.foldl_cons]
      rcases hsplit : splitEnvEntry e with _ | ⟨k, v⟩
      · exact ih m hm
      · exact ih _ (envInsert_pairwise k v m hm)

/-- The final environment map of lowering is sorted by key. -/
theorem buildEnvMap_pairwise (inh : Bool) (env : List String)
    (delta : List (String × Option String)) :
    (buildEnvMap inh env delta).Pairwise (fun a b => strLt a.1 b.1 = true) := by
  unfold buildEnvMap
  suffices h : ∀ (l : List (String × Option String)) (m : EnvMap),
      m.Pairwise (fun a b => strLt a.1 b.1 = true) →
      (l.foldl applyDeltaEntry m).Pairwise (fun a b => strLt a.1 b.1 = true) by
    refine h delta _ ?_
    cases inh
    · exact List.Pairwise.nil
    · exact foldEnviron_pairwise env
  intro l
  induction l with
  | nil => intro m hm; exact hm
  | cons d rest ih =>
      intro m hm
      simp only [List.foldl_cons]
      rcases d with ⟨k, _ | v⟩
      · exact ih _ (envErase_pairwise k m hm)
      · exact ih _ (envInsert_pairwise k v m hm)

/-- Successful lowering fills `envp` with the deterministic
`envpOf` of the snapshot and delta, independent of mode and
overrides. -/
theorem lower_command_ok_envp (cmd : Command) (env : List String)
    (mode : SpawnMode) (ov : Option StdioOverride) (spec : SpawnSpec)
    (hok : lower_command cmd env mode ov = Except.ok spec) :
    spec.envp = envpOf cmd.inherit_env env cmd.env_delta := by
  unfold lower_command at hok
  by_cases ha : cmd.argv = []
  · rw [if_pos ha] at hok
    exact Except.noConfusion hok
  · rw [if_neg ha] at hok
    simp only [] at hok
    rcases h1 : resolve_stdio (effectiveSel cmd.stdin_sel (ov.map (·.stdin_override)))
        false .stdin with e1 | sp1
    · rw [h1] at hok
      exact Except.noConfusion hok
    rw [h1] at hok
    rcases h2 : resolve_stdio (effectiveSel cmd.stdout_sel (ov.map (·.stdout_override)))
        (mode == SpawnMode.output) .stdout with e2 | sp2
    · rw [h2] at hok
      exact Except.noConfusion hok
    rw [h2] at hok
    rcases h3 : resolve_stdio (effectiveSel cmd.stderr_sel (ov.map (·.stderr_override)))
        (mode == SpawnMode.output) .stderr with e3 | sp3
    · rw [h3] at hok
      exact Except.noConfusion hok
    rw [h3] at hok
    by_cases hmg : cmd.opts.merge_stderr_into_stdout = true
    · simp only [hmg, if_true, Except.ok.injEq] at hok
      rw [← hok]
    · simp only [Bool.not_eq_true] at hmg
      simp only [hmg, Bool.false_eq_true, if_false, Except.ok.injEq] at hok
      rw [← hok]

/-- C7: the envp produced by lowering is a deterministic function of
the process-environment snapshot and the command's `env_delta`: the
inherited environment is folded into a map sorted strictly by key,
each delta entry is applied with `set` overriding and `unset`
removing the key, the emitted `KEY=VALUE` sequence follows that
sorted map, and re-lowering the same command state (with any mode or
overrides) yields the same envp. -/
theorem lower_command_envp_deterministic (cmd : Command) (env : List String)
    (mode mode' : SpawnMode) (ov ov' : Option StdioOverride)
    (spec spec' : SpawnSpec)
    (hok : lower_command cmd env mode ov = Except.ok spec)
    (hok' : lower_command cmd env mode' ov' = Except.ok spec') :
    spec.envp = envpOf cmd.inherit_env env cmd.env_delta ∧
    spec'.envp = spec.envp ∧
    (buildEnvMap cmd.inherit_env env cmd.env_delta).Pairwise
      (fun a b => strLt a.1 b.1 = true) ∧
    spec.envp = (buildEnvMap cmd.inherit_env env cmd.env_delta).map
      (fun kv => kv.1 ++ "=" ++ kv.2) ∧
    (∀ (m : EnvMap) (k v : String),
      envLookup k (applyDeltaEntry m (k, some v)) = some v) ∧
    (∀ (m : EnvMap) (k : String), m.Pairwise (fun a b => strLt a.1 b.1 = true) →
      envLookup k (applyDeltaEntry m (k, none)) = none) ∧
    (∀ (m : EnvMap) (k k' : String) (d : Option String), k' ≠ k →
      envLookup k' (applyDeltaEntry m (k, d)) = envLookup k' m) := by
  have h1 := lower_command_ok_envp cmd env mode ov spec hok
  have h2 := lower_command_ok_envp cmd env mode' ov' spec' hok'
  refine ⟨h1, h2.trans h1.symm, buildEnvMap_pairwise _ _ _, h1, ?_, ?_, ?_⟩
  · intro m k v
    exact envLookup_envInsert_self k v m
  · intro m k hm
    exact envLookup_envErase_self k m hm
  · intro m k k' d hne
    rcases d with _ | v
    · exact envLookup_envErase_ne k k' m hne
    · exact envLookup_envInsert_ne k k' v m hne

/-- Witness for C7: a concrete command lowered twice (different modes
and overrides) against the snapshot `["B=2", "A=1", "NOEQ"]`. -/
theorem lower_command_envp_deterministic_witness :
    (lower_command
        { argv := ["p"], env_delta := [("A", some "x"), ("B", none), ("C", some "3")] }
        ["B=2", "A=1", "NOEQ"] .spawn none =
      Except.ok
        { argv := ["p"], envp := ["A=x", "C=3"]
          stdin_spec := { kind := .inherit }
          stdout_spec := { kind := .inherit }
          stderr_spec := { kind := .inherit } } ∧
      lower_command
        { argv := ["p"], env_delta := [("A", some "x"), ("B", none), ("C", some "3")] }
        ["B=2", "A=1", "NOEQ"] .output none =
      Except.ok
        { argv := ["p"], envp := ["A=x", "C=3"]
          stdin_spec := { kind := .inherit }
          stdout_spec := { kind := .piped }
          stderr_spec := { kind := .piped } }) ∧
    ({ argv := ["p"], envp := ["A=x", "C=3"]
       stdin_spec := { kind := .inherit }
       stdout_spec := { kind := .inherit }
       stderr_spec := { kind := .inherit } } : SpawnSpec).envp =
      envpOf true ["B=2", "A=1", "NOEQ"]
        [("A", some "x"), ("B", none), ("C", some "3")] :=
  ⟨⟨rfl, rfl⟩,
   (lower_command_envp_deterministic
      { argv := ["p"], env_delta := [("A", some "x"), ("B", none), ("C", some "3")] }
      ["B=2", "A=1", "NOEQ"] .spawn .output none none
      { argv := ["p"], envp := ["A=x", "C=3"]
        stdin_spec := { kind := .inherit }
        stdout_spec := { kind := .inherit }
        stderr_spec := { kind := .inherit } }
      { argv := ["p"], envp := ["A=x", "C=3"]
        stdin_spec := { kind := .inherit }
        stdout_spec := { kind := .piped }
        stderr_spec := { kind := .piped } }
      rfl rfl).1⟩

/-- Unfolding of the modelled child's `try_wait`. -/
theorem childOps_try_wait (T : Nat) (st : ExitStatus) (t : Nat) (s : CallLog) :
    (childOps T st).try_wait t s =
      (Except.ok (if T ≤ t then some st else none),
        { s with try_calls := s.try_calls + 1 }) := rfl

/-- Unfolding of the modelled child's `terminate`. -/
theorem childOps_terminate (T : Nat) (st : ExitStatus) (t : Nat) (s : CallLog) :
    (childOps T st).terminate t s =
      (Except.ok (), { s with terminate_calls := s.terminate_calls + 1 }) := rfl

/-- Unfolding of the modelled child's `kill`. -/
theorem childOps_kill (T : Nat) (st : ExitStatus) (t : Nat) (s : CallLog) :
    (childOps T st).kill t s =
      (Except.ok (), { s with kill_calls := s.kill_calls + 1 }) := rfl

/-- Unfolding of the modelled child's `wait_blocking`. -/
theorem childOps_wait_blocking (T : Nat) (st : ExitStatus) (t : Nat)
    (s : CallLog) :
    (childOps T st).wait_blocking t s =
      (Except.ok st, { s with blocking_calls := s.blocking_calls + 1 }) := rfl

/-- While the child has not yet exited, the poll loop runs to its
deadline, counting one `try_wait` per elapsed millisecond. -/
theorem pollPhase_childOps_none (T : Nat) (st : ExitStatus) (dl : Nat) :
    ∀ (n t : Nat) (s : CallLog), dl ≤ T → t ≤ dl → dl - t = n →
      pollPhase (childOps T st) dl t s =
        (none, dl, { s with try_calls := s.try_calls + n }) := by
  intro n
  induction n with
  | zero =>
      intro t s hT ht h0
      have htd : t = dl := by omega
      subst htd
      unfold pollPhase
      rw [dif_neg (lt_irrefl t)]
      simp
  | succ n ih =>
      intro t s hT ht hS
      have hlt : t < dl := by omega
      have hTt : ¬ T ≤ t := by omega
      unfold pollPhase
      rw [dif_pos hlt, childOps_try_wait, if_neg hTt]
      show pollPhase (childOps T st) dl (t + 1)
          { s with try_calls := s.try_calls + 1 } = _
      rw [ih (t + 1) _ (by omega) (by omega) (by omega)]
      rw [show s.try_calls + 1 + n = s.try_calls + (n + 1) from by omega]

/-- An already-exited child is reaped by the first poll iteration. -/
theorem pollPhase_childOps_hit (T : Nat) (st : ExitStatus) (dl t : Nat)
    (s : CallLog) (hT : T ≤ t) (hlt : t < dl) :
    pollPhase (childOps T st) dl t s =
      (some (Except.ok st), t, { s with try_calls := s.try_calls + 1 }) := by
  unfold pollPhase
  rw [dif_pos hlt, childOps_try_wait, if_pos hT]

/-- A child exiting inside the grace window makes the grace loop
report the `timeout` error at the exit time. -/
theorem gracePhase_childOps_hit (T : Nat) (st : ExitStatus) (gdl : Nat) :
    ∀ (n t : Nat) (s : CallLog), t ≤ T → T < gdl → T - t = n →
      gracePhase (childOps T st) gdl t s =
        (some (Except.error timeoutError), T,
          { s with try_calls := s.try_calls + n + 1 }) := by
  intro n
  induction n with
  | zero =>
      intro t s ht hT h0
      have htd : t = T := by omega
      subst htd
      unfold gracePhase
      rw [dif_pos (by omega : t < gdl), childOps_try_wait, if_pos (le_refl t)]
  | succ n ih =>
      intro t s ht hT hS
      have hTt : ¬ T ≤ t := by omega
      unfold gracePhase
      rw [dif_pos (by omega : t < gdl), childOps_try_wait, if_neg hTt]
      show gracePhase (childOps T st) gdl (t + 1)
          { s with try_calls := s.try_calls + 1 } = _
      rw [ih (t + 1) _ (by omega) hT (by omega)]
      rw [show s.try_calls + 1 + n + 1 = s.try_calls + (n + 1) + 1 from by omega]

/-- While the child survives the whole grace window, the grace loop
runs to its deadline without a result. -/
theorem gracePhase_childOps_none (T : Nat) (st : ExitStatus) (gdl : Nat) :
    ∀ (n t : Nat) (s : CallLog), gdl ≤ T → t ≤ gdl → gdl - t = n →
      gracePhase (childOps T st) gdl t s =
        (none, gdl, { s with try_calls := s.try_calls + n }) := by
  intro n
  induction n with
  | zero =>
      intro t s hT ht h0
      have htd : t = gdl := by omega
      subst htd
      unfold gracePhase
      rw [dif_neg (lt_irrefl t)]
      simp
  | succ n ih =>
      intro t s hT ht hS
      have hlt : t < gdl := by omega
      have hTt : ¬ T ≤ t := by omega
      unfold gracePhase
      rw [dif_pos hlt, childOps_try_wait, if_neg hTt]
      show gracePhase (childOps T st) gdl (t + 1)
          { s with try_calls := s.try_calls + 1 } = _
      rw [ih (t + 1) _ (by omega) (by omega) (by omega)]
      rw [show s.try_calls + 1 + n = s.try_calls + (n + 1) from by omega]

/-- The escalation tail always reports `timeout`, discarding the
blocking reap's status, and counts one `kill` and one blocking wait. -/
theorem afterGrace_childOps (T : Nat) (st : ExitStatus) (t : Nat)
    (s : CallLog) :
    afterGrace (childOps T st) t s =
      (Except.error timeoutError, t,
        { s with kill_calls := s.kill_calls + 1,
                 blocking_calls := s.blocking_calls + 1 }) := rfl

/-- A child exiting inside the grace window still yields the
`timeout` error; `kill` and the blocking reap are never reached. -/
theorem afterDeadline_childOps_grace (T : Nat) (st : ExitStatus)
    (g t : Nat) (s : CallLog) (h1 : t ≤ T) (h2 : T < t + g) :
    afterDeadline (childOps T st) g t s =
      (Except.error timeoutError, T,
        { s with try_calls := s.try_calls + (T - t) + 1,
                 terminate_calls := s.terminate_calls + 1 }) := by
  have hg := gracePhase_childOps_hit T st (t + g) (T - t) t
    { s with terminate_calls := s.terminate_calls + 1 } h1 h2 rfl
  simp only [afterDeadline, childOps_terminate]
  rw [hg]

/-- A child surviving the whole grace window is killed and reaped,
and the `timeout` error is returned. -/
theorem afterDeadline_childOps_kill (T : Nat) (st : ExitStatus)
    (g t : Nat) (s : CallLog) (h1 : t + g ≤ T) :
    afterDeadline (childOps T st) g t s =
      (Except.error timeoutError, t + g,
        { s with try_calls := s.try_calls + g,
                 terminate_calls := s.terminate_calls + 1,
                 kill_calls := s.kill_calls + 1,
                 blocking_calls := s.blocking_calls + 1 }) := by
  have hg := gracePhase_childOps_none T st (t + g) g t
    { s with terminate_calls := s.terminate_calls + 1 }
    (by omega) (by omega) (by omega)
  simp only [afterDeadline, childOps_terminate]
  rw [hg]
  exact (afterGrace_childOps T st (t + g) _).trans rfl

/-- C2 (counterexample to the claim as stated): against an
already-exited child, `wait_with_timeout` with `timeout = 0` does NOT
return the child's status: the poll loop body never runs (the
deadline equals the current time), so `terminate` is invoked once and
the grace loop reports the `timeout` error. -/
theorem wait_timeout_zero_counterexample :
    (wait_with_timeout (childOps 0 (ExitStatus.exited 0 0)) (some 0) 5 0
        ({} : CallLog)).fst ≠ Except.ok (ExitStatus.exited 0 0) ∧
    (wait_with_timeout (childOps 0 (ExitStatus.exited 0 0)) (some 0) 5 0
        ({} : CallLog)).fst = Except.error timeoutError ∧
    (wait_with_timeout (childOps 0 (ExitStatus.exited 0 0)) (some 0) 5 0
        ({} : CallLog)).snd.snd.terminate_calls = 1 := by
  have hw : wait_with_timeout (childOps 0 (ExitStatus.exited 0 0)) (some 0) 5 0
      ({} : CallLog) =
      (Except.error timeoutError, 0,
        { try_calls := 1, terminate_calls := 1, kill_calls := 0,
          blocking_calls := 0 }) := by
    have hp := pollPhase_childOps_none 0 (ExitStatus.exited 0 0) (0 + 0) 0 0
      ({} : CallLog) (by omega) (by omega) (by omega)
    simp only [wait_with_timeout]
    rw [hp]
    exact (afterDeadline_childOps_grace 0 (ExitStatus.exited 0 0) 5 (0 + 0) _
      (by omega) (by omega)).trans rfl
  refine ⟨?_, by rw [hw], by rw [hw]⟩
  rw [hw]
  exact fun h => Except.noConfusion h

/-- C2 (amended): an already-exited child is reaped by the very first
poll iteration of any wait with a positive timeout: its status is
returned at the original time and neither `terminate` nor `kill` nor
a blocking wait is invoked.  (With `timeout = 0` the poll loop is
skipped and the policy escalates instead.) -/
theorem wait_positive_timeout_already_exited (T : Nat) (st : ExitStatus)
    (tmo g t0 : Nat) (s : CallLog) (hT : T ≤ t0) (htmo : 1 ≤ tmo) :
    wait_with_timeout (childOps T st) (some tmo) g t0 s =
      (Except.ok st, t0, { s with try_calls := s.try_calls + 1 }) := by
  have hp := pollPhase_childOps_hit T st (t0 + tmo) t0 s hT (by omega)
  simp only [wait_with_timeout]
  rw [hp]

/-- Witness for the amended C2 at a concrete input. -/
theorem wait_positive_timeout_already_exited_witness :
    ((0 : Nat) ≤ 4 ∧ (1 : Nat) ≤ 2) ∧
    wait_with_timeout (childOps 0 (ExitStatus.exited 0 0)) (some 2) 5 4
        ({} : CallLog) =
      (Except.ok (ExitStatus.exited 0 0), 4,
        { ({} : CallLog) with
            try_calls := ({} : CallLog).try_calls + 1 }) :=
  ⟨⟨by decide, by decide⟩,
   wait_positive_timeout_already_exited 0 (ExitStatus.exited 0 0) 2 5 4 {}
     (by decide) (by decide)⟩

/-- C3: when the child first yields a status only at or after the
deadline (`t0 + tmo`), the wait reports the `timeout` error: if the
exit falls inside the grace window the error is returned without
`kill` or a blocking wait; past the grace window `kill` is invoked
and the child is reaped with a blocking wait whose status is
discarded, the result still being the `timeout` error. -/
theorem wait_timeout_grace_window_and_kill (T : Nat) (st : ExitStatus)
    (tmo g t0 : Nat) (s : CallLog) :
    (t0 + tmo ≤ T → T < t0 + tmo + g →
      wait_with_timeout (childOps T st) (some tmo) g t0 s =
        (Except.error timeoutError, T,
          { s with try_calls := s.try_calls + tmo + (T - (t0 + tmo)) + 1,
                   terminate_calls := s.terminate_calls + 1 })) ∧
    (t0 + tmo + g ≤ T →
      wait_with_timeout (childOps T st) (some tmo) g t0 s =
        (Except.error timeoutError, t0 + tmo + g,
          { s with try_calls := s.try_calls + tmo + g,
                   terminate_calls := s.terminate_calls + 1,
                   kill_calls := s.kill_calls + 1,
                   blocking_calls := s.blocking_calls + 1 })) := by
  constructor
  · intro h1 h2
    have hp := pollPhase_childOps_none T st (t0 + tmo) tmo t0 s (by omega)
      (by omega) (by omega)
    simp only [wait_with_timeout]
    rw [hp]
    exact (afterDeadline_childOps_grace T st g (t0 + tmo) _ h1
      (by omega)).trans rfl
  · intro h1
    have hp := pollPhase_childOps_none T st (t0 + tmo) tmo t0 s (by omega)
      (by omega) (by omega)
    simp only [wait_with_timeout]
    rw [hp]
    exact (afterDeadline_childOps_kill T st g (t0 + tmo) _ (by omega)).trans rfl

/-- Witness for C3: a child exiting at time 7 under
`timeout = 3, kill_grace = 10` started at time 2 (grace-window exit),
and a child exiting at time 20 under `timeout = 3, kill_grace = 5`
started at time 2 (escalation to kill). -/
theorem wait_timeout_grace_window_and_kill_witness :
    ((2 + 3 ≤ 7 ∧ 7 < 2 + 3 + 10) ∧ 2 + 3 + 5 ≤ 20) ∧
    wait_with_timeout (childOps 7 (ExitStatus.exited 0 0)) (some 3) 10 2
        ({} : CallLog) =
      (Except.error timeoutError, 7,
        { ({} : CallLog) with
            try_calls := ({} : CallLog).try_calls + 3 + (7 - (2 + 3)) + 1,
            terminate_calls := ({} : CallLog).terminate_calls + 1 }) ∧
    wait_with_timeout (childOps 20 (ExitStatus.exited 0 0)) (some 3) 5 2
        ({} : CallLog) =
      (Except.error timeoutError, 2 + 3 + 5,
        { ({} : CallLog) with
            try_calls := ({} : CallLog).try_calls + 3 + 5,
            terminate_calls := ({} : CallLog).terminate_calls + 1,
            kill_calls := ({} : CallLog).kill_calls + 1,
            blocking_calls := ({} : CallLog).blocking_calls + 1 }) :=
  ⟨⟨⟨by decide, by decide⟩, by decide⟩,
   (wait_timeout_grace_window_and_kill 7 (ExitStatus.exited 0 0) 3 10 2 {}).1
     (by decide) (by decide),
   (wait_timeout_grace_window_and_kill 20 (ExitStatus.exited 0 0) 3 5 2 {}).2
     (by decide)⟩

/-- C1 (code bug evidence): in the scenario of the repository's own
unit test `PipelineSpawnFailureCleansUpStartedStages` — the pipeline
`echo | cat | cat` against a backend whose second spawn fails —
`spawn_pipeline` returns the spawn error immediately after two spawn
calls, and the already-spawned first stage (pid 101) is neither
killed nor reaped: the backend's kill and wait logs stay empty,
whereas the test (and the spec) require `kill_pids = [101]` and a
reaping wait of pid 101 before the error is returned. -/
theorem pipeline_partial_spawn_failure_no_cleanup :
    (spawn_pipeline failSecondSpawnWorld [] echoCatCatPipeline .spawn
        ({} : FakeState)).fst =
      Except.error { code := .domain .spawn_failed, context := "spawn" } ∧
    (spawn_pipeline failSecondSpawnWorld [] echoCatCatPipeline .spawn
        ({} : FakeState)).snd.spawn_calls = 2 ∧
    (spawn_pipeline failSecondSpawnWorld [] echoCatCatPipeline .spawn
        ({} : FakeState)).snd.kill_pids = [] ∧
    (spawn_pipeline failSecondSpawnWorld [] echoCatCatPipeline .spawn
        ({} : FakeState)).snd.wait_pids = [] :=
  ⟨rfl, rfl, rfl, rfl⟩

end Procly
